import Mathlib

/-!
Verification of the chunked-upload and job-lifecycle client of the
rnaseq-analysis repository (src/app.js, src/config.js).

The embedding models:
* `generateJobId` (app.js lines 68-75) over an explicit clock value,
  together with a model of JavaScript's `Date.prototype.toISOString`;
* `uploadSingleFile` (lines 110-128): chunking of one file into
  `upload_file` requests, the payload base64-encoded as `readAsDataURL`
  followed by `split(',')[1]` produces (lines 133-171);
* `uploadFiles` (lines 21-63) as an event trace: the sequence of progress
  callbacks and transport requests it emits, plus a failure-aware run
  relation parameterised by a transport oracle;
* the GET accessors `getJobStatus` / `getJobResults` / `getDownloadUrl`
  (lines 201-299) as functions of the transport outcome;
* the POST response handling of `createJobManifest`, `uploadFileChunk`
  and `markJobReady` (no-cors mode: the response is never inspected).

Machine integers do not overflow in any modelled path (sizes are Nat);
JavaScript numbers used for progress percentages are modelled as ℚ,
faithful to the exact arithmetic `10 + ((i+1)/totalFiles)*80` performed
on values whose magnitudes are far below any double rounding threshold
relevant to the stated properties.
-/

/-- Byte sequences: each entry is one octet (0-255 in every real input;
the model does not need the bound). -/
abbrev Bytes := List Nat

/-- CONFIG.UPLOAD_CHUNK_SIZE of config.js line 28, and the literal
`10 * 1024 * 1024` of app.js line 111. -/
def chunkSize : Nat := 10 * 1024 * 1024

/-- The deployed endpoint URL, config.js line 15. -/
def APPS_SCRIPT_URL : String :=
  "https://script.google.com/macros/s/AKfycbxfSjbhX4dqAtptYecF-9zpAtKYSswn2cJQT0n28ndeZzwZRsBM0X_gaNH3f3AHmIbu4w/exec"

/-- A local file handle as `uploadFiles` consumes it: a name, its byte
content, and whether the `FileReader` can read it (app.js line 165:
`reader.onerror` rejects with `Failed to read file`). -/
structure FileH where
  name : String
  content : Bytes
  readOk : Bool
deriving DecidableEq, Repr

/-- The `file.size` attribute: the byte length of the content. -/
def FileH.size (f : FileH) : Nat := f.content.length

/-- Character `n` of the base64 alphabet. -/
def b64Char (n : Nat) : Char :=
  (("ABCDEFGHIJKLMNOPQRSTUVWXYZabcdefghijklmnopqrstuvwxyz0123456789+/").data).getD n 'A'

/-- Standard base64 of a byte list, as produced by `readAsDataURL`
followed by `split(',')[1]` in `uploadFileChunk` (app.js lines 138, 169). -/
def base64Chars : Bytes → List Char
  | [] => []
  | [a] => [b64Char (a / 4), b64Char (a % 4 * 16), '=', '=']
  | [a, b] => [b64Char (a / 4), b64Char (a % 4 * 16 + b / 16), b64Char (b % 16 * 4), '=']
  | a :: b :: c :: rest =>
      b64Char (a / 4) :: b64Char (a % 4 * 16 + b / 16) ::
        b64Char (b % 16 * 4 + c / 64) :: b64Char (c % 64) :: base64Chars rest

/-- Base64 payload string for one chunk. -/
def base64Encode (bs : Bytes) : String := ⟨base64Chars bs⟩

/-- One POST request body sent to the Apps Script endpoint: `action`
selects the constructor, the fields are the `data` object (app.js lines
96-99, 147-156, 183-188). `file_data` is the base64 payload. -/
inductive Request where
  | create_job (job_id : String) (user_email : String) (files : List String)
  | upload_file (job_id : String) (file_name : String) (file_data : String)
      (chunk_index : Nat) (total_chunks : Nat)
  | mark_ready (job_id : String)
deriving DecidableEq, Repr

/-- One observable event of a `uploadFiles` run: a progress-callback
invocation `progressCallback(percent, message, fileName?)`, or a POST
request handed to the transport. -/
inductive Event where
  | progress (percent : ℚ) (message : String) (fileName : Option String)
  | sent (r : Request)
deriving DecidableEq, Repr

/-! ## Clock and job-id generation (app.js lines 68-75) -/

/-- A clock reading, the fields `new Date()` exposes through
`toISOString` (UTC components; `ms` is the millisecond field). -/
structure DateTime where
  year : Nat
  month : Nat
  day : Nat
  hour : Nat
  minute : Nat
  second : Nat
  ms : Nat
deriving DecidableEq, Repr

/-- Two-digit zero-padded decimal rendering (the shape every field of an
ISO-8601 timestamp except year and milliseconds has). -/
def pad2 (n : Nat) : List Char := [Nat.digitChar (n / 10 % 10), Nat.digitChar (n % 10)]

/-- Three-digit zero-padded decimal rendering (milliseconds). -/
def pad3 (n : Nat) : List Char :=
  [Nat.digitChar (n / 100 % 10), Nat.digitChar (n / 10 % 10), Nat.digitChar (n % 10)]

/-- Four-digit zero-padded decimal rendering (year). -/
def pad4 (n : Nat) : List Char :=
  [Nat.digitChar (n / 1000 % 10), Nat.digitChar (n / 100 % 10),
   Nat.digitChar (n / 10 % 10), Nat.digitChar (n % 10)]

/-- Model of `Date.prototype.toISOString` for in-range dates:
`YYYY-MM-DDTHH:MM:SS.mmmZ`. -/
def toISOString (d : DateTime) : String :=
  ⟨pad4 d.year ++ '-' :: pad2 d.month ++ '-' :: pad2 d.day ++
   'T' :: pad2 d.hour ++ ':' :: pad2 d.minute ++ ':' :: pad2 d.second ++
   '.' :: pad3 d.ms ++ ['Z']⟩

/-- The regex replacement `.replace(/[-:]/g, '')` of app.js line 71:
every dash and colon is deleted. -/
def removeDashColon (l : List Char) : List Char :=
  l.filter fun c => !(c == '-' || c == ':')

/-- The string replacement `.replace('T', '_')` of app.js line 72: only
the first occurrence is replaced. -/
def replaceFirstChar (a b : Char) : List Char → List Char
  | [] => []
  | c :: cs => if c = a then b :: cs else c :: replaceFirstChar a b cs

/-- `generateJobId` of app.js lines 68-75, over an explicit clock value:
compact the ISO timestamp, keep 15 characters, prepend `job_`. -/
def generateJobId (d : DateTime) : String :=
  "job_" ++ ⟨(replaceFirstChar 'T' '_' (removeDashColon (toISOString d).data)).take 15⟩

/-- The compact timestamp shape `YYYYMMDD_HHMMSS` that the spec ascribes
to job identifiers; `generateJobId` is proved to produce exactly
`job_` followed by this. -/
def compactStamp (d : DateTime) : String :=
  ⟨pad4 d.year ++ pad2 d.month ++ pad2 d.day ++
   '_' :: pad2 d.hour ++ pad2 d.minute ++ pad2 d.second⟩

/-! ## Chunking (app.js lines 110-128) -/

/-- The byte slice `file.slice(start, end)` with `start = i*chunkSize`
and `end = min(start + chunkSize, file.size)` (app.js lines 121-123). -/
def chunkSlice (f : FileH) (i : Nat) : Bytes :=
  (f.content.drop (i * chunkSize)).take (min (i * chunkSize + chunkSize) f.size - i * chunkSize)

/-- The number of `upload_file` requests `uploadSingleFile` issues for a
file: one for a small file, `Math.ceil(size / chunkSize)` otherwise. -/
def numChunks (f : FileH) : Nat :=
  if f.size ≤ chunkSize then 1 else (f.size + chunkSize - 1) / chunkSize

/-- `uploadSingleFile` of app.js lines 110-128 as the list of
`upload_file` requests it performs, in order.  A small file goes out
whole as chunk 0 of 1; a large file is cut into
`Math.ceil(size/chunkSize)` slices, uploaded in ascending index order.
Each payload is the chunk's bytes base64-encoded by `uploadFileChunk`. -/
def uploadSingleFile (jobId : String) (f : FileH) : List Request :=
  if f.size ≤ chunkSize then
    [Request.upload_file jobId f.name (base64Encode f.content) 0 1]
  else
    let totalChunks := (f.size + chunkSize - 1) / chunkSize
    (List.range totalChunks).map fun i =>
      Request.upload_file jobId f.name (base64Encode (chunkSlice f i)) i totalChunks

/-! ## The uploadFiles event trace (app.js lines 21-63) -/

/-- The for-loop of app.js lines 37-48: for the file at position `i`
(0-based, out of `totalFiles`), report progress
`10 + ((i+1)/totalFiles)*80` with the file's name, then send its
chunks; continue with the rest. -/
def uploadLoop (jobId : String) (totalFiles : Nat) : Nat → List FileH → List Event
  | _, [] => []
  | i, f :: rest =>
      Event.progress (10 + (((i + 1 : Nat) : ℚ) / (totalFiles : ℚ)) * 80)
          ("Uploading file " ++ toString (i + 1) ++ " of " ++ toString totalFiles ++ "...")
          (some f.name)
        :: ((uploadSingleFile jobId f).map Event.sent
            ++ uploadLoop jobId totalFiles (i + 1) rest)

/-- The full event trace of one failure-free `uploadFiles` run
(app.js lines 21-63): progress 0, the `create_job` POST, progress 10,
the per-file loop, progress 95, the `mark_ready` POST, progress 100. -/
def uploadFilesEvents (now : DateTime) (email : String) (files : List FileH) : List Event :=
  let jobId := generateJobId now
  Event.progress 0 ("Creating job...") none
    :: Event.sent (Request.create_job jobId email (files.map FileH.name))
    :: Event.progress 10 ("Uploading files...") none
    :: (uploadLoop jobId files.length 0 files
        ++ [Event.progress 95 ("Finalizing upload...") none,
            Event.sent (Request.mark_ready jobId),
            Event.progress 100 ("Upload complete!") none])

/-- The requests a failure-free `uploadFiles` run posts, in order:
`create_job`, every file's chunks in input order, `mark_ready`. -/
def uploadRequests (jobId : String) (email : String) (files : List FileH) : List Request :=
  Request.create_job jobId email (files.map FileH.name)
    :: (files.flatMap (uploadSingleFile jobId) ++ [Request.mark_ready jobId])

/-- Projection of an event trace onto the transport requests it sends. -/
def sentRequests (evts : List Event) : List Request :=
  evts.filterMap fun e => match e with
    | Event.sent r => some r
    | _ => none

/-- Projection of an event trace onto the percentage values passed to
the progress callback, in invocation order. -/
def progressList (evts : List Event) : List ℚ :=
  evts.filterMap fun e => match e with
    | Event.progress p _ _ => some p
    | _ => none

/-- Chunk indices of the `upload_file` requests for a given file name,
in transmission order. -/
def chunkIndices (fname : String) (rs : List Request) : List Nat :=
  rs.filterMap fun r => match r with
    | Request.upload_file _ n _ i _ => if n = fname then some i else none
    | _ => none

/-- The `total_chunks` fields of the `upload_file` requests for a given
file name, in transmission order. -/
def chunkTotals (fname : String) (rs : List Request) : List Nat :=
  rs.filterMap fun r => match r with
    | Request.upload_file _ n _ _ t => if n = fname then some t else none
    | _ => none

/-- File names of the `upload_file` requests, in transmission order. -/
def uploadNames (rs : List Request) : List String :=
  rs.filterMap fun r => match r with
    | Request.upload_file _ n _ _ _ => some n
    | _ => none

/-! ## Failure-aware run of uploadFiles (app.js lines 21-63, 133-171)

The transport is an oracle: for the n-th POST attempted (0-based), it
either resolves (`none`) or rejects with a message (`some m`), matching
`fetch` in no-cors mode, which rejects only on network failure.  A chunk
upload first reads the chunk through `FileReader`; a read failure
rejects with `Failed to read file` before any fetch happens. -/

/-- One step of the upload sequence: a plain POST (`create_job`,
`mark_ready`), or a chunk POST preceded by a `FileReader` read whose
success is the file's `readOk` flag. -/
inductive UploadAction where
  | post (r : Request)
  | readPost (ok : Bool) (r : Request)
deriving DecidableEq, Repr

/-- The request an action would send. -/
def UploadAction.req : UploadAction → Request
  | .post r => r
  | .readPost _ r => r

/-- The action sequence of one `uploadFiles` run: create the manifest,
read-and-post every chunk of every file in order, mark ready. -/
def uploadActions (jobId : String) (email : String) (files : List FileH) : List UploadAction :=
  UploadAction.post (Request.create_job jobId email (files.map FileH.name))
    :: (files.flatMap (fun f => (uploadSingleFile jobId f).map (UploadAction.readPost f.readOk))
        ++ [UploadAction.post (Request.mark_ready jobId)])

/-- Execute actions sequentially against the oracle, `n` POSTs already
attempted.  Returns the requests handed to the transport (the failing
attempt included) and the first error, if any; a rejected await aborts
the rest, exactly as the `await` chain of app.js lines 30-53 does. -/
def runActions (oracle : Nat → Option String) : List UploadAction → Nat → List Request × Option String
  | [], _ => ([], none)
  | UploadAction.post r :: rest, n =>
      match oracle n with
      | some m => ([r], some m)
      | none =>
          let t := runActions oracle rest (n + 1)
          (r :: t.1, t.2)
  | UploadAction.readPost ok r :: rest, n =>
      if ok then
        match oracle n with
        | some m => ([r], some m)
        | none =>
            let t := runActions oracle rest (n + 1)
            (r :: t.1, t.2)
      else ([], some "Failed to read file")

/-- One complete `uploadFiles` run against a transport oracle: the
requests handed to the transport, and the outcome — the job id on
success, or the catch-block rewrap `'Upload failed: ' + error.message`
of app.js line 61 on failure. -/
def runUpload (oracle : Nat → Option String) (now : DateTime) (email : String)
    (files : List FileH) : List Request × Except String String :=
  let jobId := generateJobId now
  let t := runActions oracle (uploadActions jobId email files) 0
  (t.1, match t.2 with
        | some m => Except.error ("Upload failed: " ++ m)
        | none => Except.ok jobId)

/-! ## GET accessors (app.js lines 201-299) -/

/-- The parsed JSON body of a GET response: an optional `error` field
and an optional `url` field (the payload `getDownloadUrl` reads); the
rest of the payload is opaque to the client and represented by `raw`. -/
structure RespBody where
  error : Option String
  url : Option String
  raw : String
deriving DecidableEq, Repr

/-- Outcome of a GET `fetch` as the client observes it: the call rejects
with a message, or resolves with an `ok` flag and a parsed body. -/
inductive FetchResult where
  | netError (msg : String)
  | response (ok : Bool) (body : RespBody)
deriving DecidableEq, Repr

/-- JavaScript truthiness of the `error` field as tested by
`if (data.error)`: an absent field and the empty string are falsy. -/
def truthy : Option String → Bool
  | none => false
  | some s => !(s == "")

/-- `getJobStatus` of app.js lines 201-227 as a function of the fetch
outcome: reject on network error, on `!response.ok`, or on a truthy
`data.error`; every rejection is rewrapped by the catch block with the
`Could not retrieve job status: ` prefix; otherwise return the body. -/
def getJobStatus (tr : FetchResult) : Except String RespBody :=
  match tr with
  | FetchResult.netError m => Except.error ("Could not retrieve job status: " ++ m)
  | FetchResult.response ok body =>
      if !ok then Except.error ("Could not retrieve job status: " ++ "Failed to get status")
      else match body.error with
        | some s =>
            if !(s == "") then Except.error ("Could not retrieve job status: " ++ s)
            else Except.ok body
        | none => Except.ok body

/-- `getJobResults` of app.js lines 238-264: same shape as
`getJobStatus` with the `Could not retrieve results: ` prefix and the
`Failed to get results` not-ok message. -/
def getJobResults (tr : FetchResult) : Except String RespBody :=
  match tr with
  | FetchResult.netError m => Except.error ("Could not retrieve results: " ++ m)
  | FetchResult.response ok body =>
      if !ok then Except.error ("Could not retrieve results: " ++ "Failed to get results")
      else match body.error with
        | some s =>
            if !(s == "") then Except.error ("Could not retrieve results: " ++ s)
            else Except.ok body
        | none => Except.ok body

/-- `getDownloadUrl` of app.js lines 272-299: same rejection shape with
the `Could not get download URL: ` prefix; on success it returns
`data.url` (absent fields read as `undefined`, modelled `none`). -/
def getDownloadUrl (tr : FetchResult) : Except String (Option String) :=
  match tr with
  | FetchResult.netError m => Except.error ("Could not get download URL: " ++ m)
  | FetchResult.response ok body =>
      if !ok then Except.error ("Could not get download URL: " ++ "Failed to get download URL")
      else match body.error with
        | some s =>
            if !(s == "") then Except.error ("Could not get download URL: " ++ s)
            else Except.ok body.url
        | none => Except.ok body.url

/-- A GET request as handed to `fetch`: the URL and the header list. -/
structure GetRequest where
  url : String
  headers : List (String × String)
deriving DecidableEq, Repr

/-- The request `getJobStatus` issues (app.js lines 203-209): query
string only, explicitly no headers. -/
def getJobStatusRequest (jobId : String) : GetRequest :=
  ⟨APPS_SCRIPT_URL ++ "?action=get_status&job_id=" ++ jobId, []⟩

/-- The request `getJobResults` issues (app.js lines 240-246): query
string only, explicitly no headers. -/
def getJobResultsRequest (jobId : String) : GetRequest :=
  ⟨APPS_SCRIPT_URL ++ "?action=get_results&job_id=" ++ jobId, []⟩

/-- The request `getDownloadUrl` issues (app.js lines 274-281): query
string plus a `Content-Type: application/json` header. -/
def getDownloadUrlRequest (jobId : String) (fileId : String) : GetRequest :=
  ⟨APPS_SCRIPT_URL ++ "?action=get_download_url&job_id=" ++ jobId ++ "&file_id=" ++ fileId,
   [("Content-Type", "application/json")]⟩

/-! ## POST response handling (app.js lines 80-105, 133-171, 176-190) -/

/-- An HTTP response to a POST as the transport would see it; in
no-cors mode the client receives an opaque value and can read none of
these fields. -/
structure PostResponse where
  status : Nat
  body : String
deriving DecidableEq, Repr

/-- The value `createJobManifest` (app.js lines 80-105) produces from
the awaited fetch: any resolved response yields `true` (line 104), a
rejection propagates. -/
def createJobManifest (tr : Except String PostResponse) : Except String Bool :=
  match tr with
  | Except.error m => Except.error m
  | Except.ok _ => Except.ok true

/-- The settlement of the promise `uploadFileChunk` (app.js lines
133-171) returns, as a function of the chunk read outcome and the fetch
outcome: a failed read rejects with `Failed to read file`; otherwise
`resolve()` is called whenever the fetch resolves, whatever the
response was, and a fetch rejection is passed to `reject`. -/
def uploadFileChunk (readOk : Bool) (tr : Except String PostResponse) : Except String Unit :=
  if readOk then
    match tr with
    | Except.error m => Except.error m
    | Except.ok _ => Except.ok ()
  else Except.error "Failed to read file"

/-- The value `markJobReady` (app.js lines 176-190) produces from the
awaited fetch: any resolved response completes silently, a rejection
propagates. -/
def markJobReady (tr : Except String PostResponse) : Except String Unit :=
  match tr with
  | Except.error m => Except.error m
  | Except.ok _ => Except.ok ()

/-- An event that is a progress-callback invocation carrying a file name
(the per-file checkpoints of the loop, app.js lines 41-45). -/
def Event.hasFile : Event → Bool
  | Event.progress _ _ (some _) => true
  | _ => false

/-- An event that is an `upload_file` POST handed to the transport. -/
def Event.isChunkSent : Event → Bool
  | Event.sent (Request.upload_file _ _ _ _ _) => true
  | _ => false

/-! ## Helper lemmas -/

theorem mem_uploadSingleFile {jobId : String} {f : FileH} {r : Request}
    (h : r ∈ uploadSingleFile jobId f) :
    ∃ d i, r = Request.upload_file jobId f.name d i (numChunks f) := by
  unfold uploadSingleFile at h
  unfold numChunks
  by_cases hsz : f.size ≤ chunkSize
  · rw [if_pos hsz] at h
    rw [if_pos hsz]
    simp at h
    exact ⟨base64Encode f.content, 0, h⟩
  · rw [if_neg hsz] at h
    rw [if_neg hsz]
    simp at h
    obtain ⟨i, _, hr⟩ := h
    exact ⟨base64Encode (chunkSlice f i), i, hr.symm⟩

theorem uploadNames_append (a b : List Request) :
    uploadNames (a ++ b) = uploadNames a ++ uploadNames b := by
  simp [uploadNames, List.filterMap_append]

theorem chunkIndices_append (fname : String) (a b : List Request) :
    chunkIndices fname (a ++ b) = chunkIndices fname a ++ chunkIndices fname b := by
  simp [chunkIndices, List.filterMap_append]

theorem chunkTotals_append (fname : String) (a b : List Request) :
    chunkTotals fname (a ++ b) = chunkTotals fname a ++ chunkTotals fname b := by
  simp [chunkTotals, List.filterMap_append]

theorem uploadNames_upload_map (jobId fname : String) (payload : Nat → String) (T : Nat) :
    ∀ n, uploadNames ((List.range n).map fun i =>
        Request.upload_file jobId fname (payload i) i T) = List.replicate n fname := by
  intro n
  induction n with
  | zero => rfl
  | succ k ih =>
      rw [List.range_succ, List.map_append, uploadNames_append, ih, List.replicate_succ']
      rfl

theorem chunkIndices_upload_map (jobId fname : String) (payload : Nat → String) (T : Nat) :
    ∀ n, chunkIndices fname ((List.range n).map fun i =>
        Request.upload_file jobId fname (payload i) i T) = List.range n := by
  intro n
  induction n with
  | zero => rfl
  | succ k ih =>
      rw [List.range_succ, List.map_append, chunkIndices_append, ih]
      simp [chunkIndices]

theorem chunkTotals_upload_map (jobId fname : String) (payload : Nat → String) (T : Nat) :
    ∀ n, chunkTotals fname ((List.range n).map fun i =>
        Request.upload_file jobId fname (payload i) i T) = List.replicate n T := by
  intro n
  induction n with
  | zero => rfl
  | succ k ih =>
      rw [List.range_succ, List.map_append, chunkTotals_append, ih, List.replicate_succ']
      simp [chunkTotals]

theorem uploadNames_uploadSingleFile (jobId : String) (f : FileH) :
    uploadNames (uploadSingleFile jobId f) = List.replicate (numChunks f) f.name := by
  unfold uploadSingleFile numChunks
  by_cases hsz : f.size ≤ chunkSize
  · simp [if_pos hsz, uploadNames]
  · simp only [if_neg hsz]
    exact uploadNames_upload_map jobId f.name _ _ _

theorem chunkIndices_uploadSingleFile_self (jobId : String) (f : FileH) :
    chunkIndices f.name (uploadSingleFile jobId f) = List.range (numChunks f) := by
  unfold uploadSingleFile numChunks
  by_cases hsz : f.size ≤ chunkSize
  · simp [if_pos hsz, chunkIndices, List.range_succ]
  · simp only [if_neg hsz]
    exact chunkIndices_upload_map jobId f.name _ _ _

theorem chunkTotals_uploadSingleFile_self (jobId : String) (f : FileH) :
    chunkTotals f.name (uploadSingleFile jobId f) = List.replicate (numChunks f) (numChunks f) := by
  unfold uploadSingleFile numChunks
  by_cases hsz : f.size ≤ chunkSize
  · simp [if_pos hsz, chunkTotals]
  · simp only [if_neg hsz]
    exact chunkTotals_upload_map jobId f.name _ _ _

theorem chunkIndices_uploadSingleFile_other {fname : String} {g : FileH} (jobId : String)
    (hne : g.name ≠ fname) :
    chunkIndices fname (uploadSingleFile jobId g) = [] := by
  rw [chunkIndices, List.filterMap_eq_nil_iff]
  intro r hr
  obtain ⟨d, i, rfl⟩ := mem_uploadSingleFile hr
  simp [hne]

theorem chunkTotals_uploadSingleFile_other {fname : String} {g : FileH} (jobId : String)
    (hne : g.name ≠ fname) :
    chunkTotals fname (uploadSingleFile jobId g) = [] := by
  rw [chunkTotals, List.filterMap_eq_nil_iff]
  intro r hr
  obtain ⟨d, i, rfl⟩ := mem_uploadSingleFile hr
  simp [hne]

theorem chunkIndices_flatMap_not_mem {fname : String} (jobId : String) (files : List FileH)
    (h : fname ∉ files.map FileH.name) :
    chunkIndices fname (files.flatMap (uploadSingleFile jobId)) = [] := by
  induction files with
  | nil => rfl
  | cons g rest ih =>
      simp only [List.map_cons, List.mem_cons, not_or] at h
      rw [List.flatMap_cons, chunkIndices_append,
        chunkIndices_uploadSingleFile_other jobId (fun hc => h.1 hc.symm), ih h.2]
      rfl

theorem chunkTotals_flatMap_not_mem {fname : String} (jobId : String) (files : List FileH)
    (h : fname ∉ files.map FileH.name) :
    chunkTotals fname (files.flatMap (uploadSingleFile jobId)) = [] := by
  induction files with
  | nil => rfl
  | cons g rest ih =>
      simp only [List.map_cons, List.mem_cons, not_or] at h
      rw [List.flatMap_cons, chunkTotals_append,
        chunkTotals_uploadSingleFile_other jobId (fun hc => h.1 hc.symm), ih h.2]
      rfl

theorem chunkIndices_flatMap {jobId : String} {files : List FileH} {f : FileH}
    (hf : f ∈ files) (hnd : (files.map FileH.name).Nodup) :
    chunkIndices f.name (files.flatMap (uploadSingleFile jobId)) = List.range (numChunks f) := by
  induction files with
  | nil => cases hf
  | cons g rest ih =>
      simp only [List.map_cons, List.nodup_cons] at hnd
      rw [List.flatMap_cons, chunkIndices_append]
      rcases List.mem_cons.mp hf with hfg | hfr
      · subst hfg
        rw [chunkIndices_uploadSingleFile_self, chunkIndices_flatMap_not_mem jobId rest hnd.1,
          List.append_nil]
      · have hne : g.name ≠ f.name := fun hc =>
          hnd.1 (hc ▸ List.mem_map.mpr ⟨f, hfr, rfl⟩)
        rw [chunkIndices_uploadSingleFile_other jobId hne, ih hfr hnd.2, List.nil_append]

theorem chunkTotals_flatMap {jobId : String} {files : List FileH} {f : FileH}
    (hf : f ∈ files) (hnd : (files.map FileH.name).Nodup) :
    chunkTotals f.name (files.flatMap (uploadSingleFile jobId))
      = List.replicate (numChunks f) (numChunks f) := by
  induction files with
  | nil => cases hf
  | cons g rest ih =>
      simp only [List.map_cons, List.nodup_cons] at hnd
      rw [List.flatMap_cons, chunkTotals_append]
      rcases List.mem_cons.mp hf with hfg | hfr
      · subst hfg
        rw [chunkTotals_uploadSingleFile_self, chunkTotals_flatMap_not_mem jobId rest hnd.1,
          List.append_nil]
      · have hne : g.name ≠ f.name := fun hc =>
          hnd.1 (hc ▸ List.mem_map.mpr ⟨f, hfr, rfl⟩)
        rw [chunkTotals_uploadSingleFile_other jobId hne, ih hfr hnd.2, List.nil_append]

theorem uploadNames_flatMap (jobId : String) (files : List FileH) :
    uploadNames (files.flatMap (uploadSingleFile jobId))
      = files.flatMap fun f => List.replicate (numChunks f) f.name := by
  induction files with
  | nil => rfl
  | cons g rest ih =>
      rw [List.flatMap_cons, uploadNames_append, uploadNames_uploadSingleFile, ih,
        List.flatMap_cons]

theorem sentRequests_append (a b : List Event) :
    sentRequests (a ++ b) = sentRequests a ++ sentRequests b := by
  simp [sentRequests, List.filterMap_append]

theorem sentRequests_map_sent (rs : List Request) :
    sentRequests (rs.map Event.sent) = rs := by
  induction rs with
  | nil => rfl
  | cons r rest ih => simp [sentRequests] at ih ⊢; exact ih

theorem sentRequests_uploadLoop (jobId : String) (N : Nat) :
    ∀ (i : Nat) (fs : List FileH),
      sentRequests (uploadLoop jobId N i fs) = fs.flatMap (uploadSingleFile jobId) := by
  intro i fs
  induction fs generalizing i with
  | nil => rfl
  | cons g rest ih =>
      rw [uploadLoop, List.flatMap_cons]
      show sentRequests ((uploadSingleFile jobId g).map Event.sent
        ++ uploadLoop jobId N (i + 1) rest) = _
      rw [sentRequests_append, sentRequests_map_sent, ih (i + 1)]

theorem sentRequests_uploadFilesEvents (now : DateTime) (email : String) (files : List FileH) :
    sentRequests (uploadFilesEvents now email files)
      = uploadRequests (generateJobId now) email files := by
  rw [uploadFilesEvents, uploadRequests]
  show sentRequests (Event.progress 0 ("Creating job...") none
      :: Event.sent (Request.create_job (generateJobId now) email (files.map FileH.name))
      :: Event.progress 10 ("Uploading files...") none
      :: (uploadLoop (generateJobId now) files.length 0 files
          ++ [Event.progress 95 ("Finalizing upload...") none,
              Event.sent (Request.mark_ready (generateJobId now)),
              Event.progress 100 ("Upload complete!") none])) = _
  simp only [sentRequests, List.filterMap_cons, List.filterMap_append]
  rw [show List.filterMap _ (uploadLoop (generateJobId now) files.length 0 files)
      = sentRequests (uploadLoop (generateJobId now) files.length 0 files) from rfl,
    sentRequests_uploadLoop]
  rfl

theorem progressList_append (a b : List Event) :
    progressList (a ++ b) = progressList a ++ progressList b := by
  simp [progressList, List.filterMap_append]

theorem progressList_cons_progress (p : ℚ) (msg : String) (fn : Option String) (l : List Event) :
    progressList (Event.progress p msg fn :: l) = p :: progressList l := rfl

theorem progressList_cons_sent (r : Request) (l : List Event) :
    progressList (Event.sent r :: l) = progressList l := rfl

theorem progressList_map_sent (rs : List Request) :
    progressList (rs.map Event.sent) = [] := by
  induction rs with
  | nil => rfl
  | cons r rest ih => rw [List.map_cons, progressList_cons_sent, ih]

theorem progressList_uploadLoop (jobId : String) (N : Nat) :
    ∀ (fs : List FileH) (i : Nat),
      progressList (uploadLoop jobId N i fs)
        = (List.range fs.length).map fun k =>
            10 + (((i + k + 1 : Nat) : ℚ) / (N : ℚ)) * 80 := by
  intro fs
  induction fs with
  | nil => intro i; rfl
  | cons g rest ih =>
      intro i
      rw [uploadLoop]
      rw [progressList_cons_progress, progressList_append, progressList_map_sent,
        List.nil_append, ih (i + 1)]
      rw [List.length_cons, List.range_succ_eq_map, List.map_cons, List.map_map]
      congr 1
      apply List.map_congr_left
      intro k _
      have hnat : i + 1 + k + 1 = i + (k + 1) + 1 := by omega
      simp [Function.comp, hnat]

theorem progressList_uploadFilesEvents (now : DateTime) (email : String) (files : List FileH) :
    progressList (uploadFilesEvents now email files)
      = 0 :: 10 :: (((List.range files.length).map fun k =>
          10 + (((k + 1 : Nat) : ℚ) / (files.length : ℚ)) * 80) ++ [95, 100]) := by
  rw [uploadFilesEvents]
  show progressList (Event.progress 0 ("Creating job...") none
      :: Event.sent (Request.create_job (generateJobId now) email (files.map FileH.name))
      :: Event.progress 10 ("Uploading files...") none
      :: (uploadLoop (generateJobId now) files.length 0 files
          ++ [Event.progress 95 ("Finalizing upload...") none,
              Event.sent (Request.mark_ready (generateJobId now)),
              Event.progress 100 ("Upload complete!") none])) = _
  rw [progressList_cons_progress, progressList_cons_sent, progressList_cons_progress,
    progressList_append, progressList_uploadLoop]
  rw [show progressList [Event.progress 95 ("Finalizing upload...") none,
      Event.sent (Request.mark_ready (generateJobId now)),
      Event.progress 100 ("Upload complete!") none] = [95, 100] from rfl]
  congr 1
  congr 1
  congr 1
  apply List.map_congr_left
  intro k _
  have hnat : 0 + k + 1 = k + 1 := by omega
  rw [hnat]

theorem progressVal_bounds {N k : Nat} (hN : 0 < N) (hk : k < N) :
    (10 : ℚ) ≤ 10 + (((k + 1 : Nat) : ℚ) / (N : ℚ)) * 80 ∧
    10 + (((k + 1 : Nat) : ℚ) / (N : ℚ)) * 80 ≤ 90 := by
  have hN' : (0 : ℚ) < (N : ℚ) := by exact_mod_cast hN
  constructor
  · have hx : (0 : ℚ) ≤ ((k + 1 : Nat) : ℚ) / (N : ℚ) :=
      div_nonneg (by positivity) (le_of_lt hN')
    nlinarith
  · have hle : ((k + 1 : Nat) : ℚ) ≤ (N : ℚ) := by
      exact_mod_cast Nat.succ_le_of_lt hk
    have hx : ((k + 1 : Nat) : ℚ) / (N : ℚ) ≤ 1 := (div_le_one hN').mpr hle
    nlinarith

theorem uploadLoop_decomp (jobId : String) (N : Nat) :
    ∀ (fs : List FileH) (i k : Nat) (f : FileH), fs[k]? = some f →
      ∃ pre post, uploadLoop jobId N i fs
        = pre ++ Event.progress (10 + (((i + k + 1 : Nat) : ℚ) / (N : ℚ)) * 80)
            ("Uploading file " ++ toString (i + k + 1) ++ " of " ++ toString N ++ "...")
            (some f.name)
          :: ((uploadSingleFile jobId f).map Event.sent ++ post) := by
  intro fs
  induction fs with
  | nil => intro i k f hk; simp at hk
  | cons g rest ih =>
      intro i k f hk
      cases k with
      | zero =>
          have hgf : g = f := by simpa using hk
          subst hgf
          exact ⟨[], uploadLoop jobId N (i + 1) rest, rfl⟩
      | succ k' =>
          obtain ⟨pre, post, heq⟩ := ih (i + 1) k' f (by simpa using hk)
          refine ⟨Event.progress (10 + (((i + 1 : Nat) : ℚ) / (N : ℚ)) * 80)
              ("Uploading file " ++ toString (i + 1) ++ " of " ++ toString N ++ "...")
              (some g.name) :: ((uploadSingleFile jobId g).map Event.sent ++ pre), post, ?_⟩
          rw [uploadLoop, heq]
          have hnat : i + 1 + k' + 1 = i + (k' + 1) + 1 := by omega
          rw [hnat]
          simp [List.append_assoc]

theorem runActions_transport_fail (oracle : Nat → Option String) :
    ∀ (acts : List UploadAction) (n k : Nat) (m : String),
      (∀ b r, UploadAction.readPost b r ∈ acts → b = true) →
      (∀ j, j < k → oracle (n + j) = none) →
      oracle (n + k) = some m →
      k < acts.length →
      runActions oracle acts n = ((acts.map UploadAction.req).take (k + 1), some m) := by
  intro acts
  induction acts with
  | nil => intro n k m _ _ _ hlen; simp at hlen
  | cons a rest ih =>
      intro n k m hread hpre hk hlen
      cases k with
      | zero =>
          have h0 : oracle n = some m := by simpa using hk
          cases a with
          | post r => simp [runActions, h0, UploadAction.req]
          | readPost ok r =>
              have hok : ok = true := hread ok r (List.mem_cons_self _ _)
              subst hok
              simp [runActions, h0, UploadAction.req]
      | succ k' =>
          have h0 : oracle n = none := by simpa using hpre 0 (Nat.succ_pos k')
          have hpre' : ∀ j, j < k' → oracle (n + 1 + j) = none := by
            intro j hj
            have hh := hpre (j + 1) (by omega)
            rw [show n + (j + 1) = n + 1 + j by omega] at hh
            exact hh
          have hk' : oracle (n + 1 + k') = some m := by
            rw [show n + 1 + k' = n + (k' + 1) by omega]
            exact hk
          cases a with
          | post r =>
              have hrec := ih (n + 1) k' m
                (fun b r' hm => hread b r' (List.mem_cons_of_mem _ hm)) hpre' hk'
                (by simpa using hlen)
              simp [runActions, h0, hrec, UploadAction.req]
          | readPost ok r =>
              have hok : ok = true := hread ok r (List.mem_cons_self _ _)
              subst hok
              have hrec := ih (n + 1) k' m
                (fun b r' hm => hread b r' (List.mem_cons_of_mem _ hm)) hpre' hk'
                (by simpa using hlen)
              simp [runActions, h0, hrec, UploadAction.req]

theorem runActions_read_fail (oracle : Nat → Option String) :
    ∀ (acts : List UploadAction) (r₀ : Request) (rest : List UploadAction) (n : Nat),
      (∀ b r, UploadAction.readPost b r ∈ acts → b = true) →
      (∀ j, j < acts.length → oracle (n + j) = none) →
      runActions oracle (acts ++ UploadAction.readPost false r₀ :: rest) n
        = (acts.map UploadAction.req, some "Failed to read file") := by
  intro acts
  induction acts with
  | nil =>
      intro r₀ rest n _ _
      simp [runActions]
  | cons a tail ih =>
      intro r₀ rest n hread hnone
      have h0 : oracle n = none := by simpa using hnone 0 (by simp)
      have hnone' : ∀ j, j < tail.length → oracle (n + 1 + j) = none := by
        intro j hj
        have hh := hnone (j + 1) (by simp; omega)
        rw [show n + (j + 1) = n + 1 + j by omega] at hh
        exact hh
      have hrec := ih r₀ rest (n + 1)
        (fun b r' hm => hread b r' (List.mem_cons_of_mem _ hm)) hnone'
      cases a with
      | post r => simp [runActions, h0, hrec, UploadAction.req]
      | readPost ok r =>
          have hok : ok = true := hread ok r (List.mem_cons_self _ _)
          subst hok
          simp [runActions, h0, hrec, UploadAction.req]

theorem req_readPost (b : Bool) (r : Request) :
    (UploadAction.readPost b r).req = r := rfl

theorem map_req_flatMap (jobId : String) (gs : List FileH) :
    (gs.flatMap fun g =>
        (uploadSingleFile jobId g).map (UploadAction.readPost g.readOk)).map UploadAction.req
      = gs.flatMap (uploadSingleFile jobId) := by
  simp [List.map_flatMap, List.map_map, Function.comp_def, req_readPost]

theorem map_req_uploadActions (jobId email : String) (files : List FileH) :
    (uploadActions jobId email files).map UploadAction.req
      = uploadRequests jobId email files := by
  rw [uploadActions, uploadRequests]
  simp only [List.map_cons, List.map_append, UploadAction.req]
  rw [map_req_flatMap]
  simp

theorem uploadSingleFile_ne_nil (jobId : String) (f : FileH) :
    uploadSingleFile jobId f ≠ [] := by
  unfold uploadSingleFile
  by_cases hsz : f.size ≤ chunkSize
  · simp [if_pos hsz]
  · simp only [if_neg hsz]
    have hT : 1 ≤ (f.size + chunkSize - 1) / chunkSize := by
      simp only [chunkSize] at hsz ⊢
      omega
    intro hc
    have := congrArg List.length hc
    simp at this
    omega

theorem length_flatMap_readPost (jobId : String) (gs : List FileH) :
    (gs.flatMap fun g =>
        (uploadSingleFile jobId g).map (UploadAction.readPost g.readOk)).length
      = (gs.flatMap (uploadSingleFile jobId)).length := by
  induction gs with
  | nil => rfl
  | cons g tail ih => simp [List.flatMap_cons, ih]

theorem readflags_uploadActions {jobId email : String} {files : List FileH}
    (hread : ∀ f ∈ files, f.readOk = true) :
    ∀ b r, UploadAction.readPost b r ∈ uploadActions jobId email files → b = true := by
  intro b r hm
  rw [uploadActions] at hm
  rcases List.mem_cons.mp hm with hc | hm'
  · cases hc
  rcases List.mem_append.mp hm' with hf | hl
  · obtain ⟨g, hg, hx⟩ := List.mem_flatMap.mp hf
    obtain ⟨r', _, hr'⟩ := List.mem_map.mp hx
    cases hr'
    exact hread g hg
  · rcases List.mem_cons.mp hl with hc | hc
    · cases hc
    · cases hc

theorem digit_beq_dash (k : Nat) : (Nat.digitChar (k % 10) == '-') = false := by
  have h : k % 10 < 10 := Nat.mod_lt _ (by norm_num)
  revert h; generalize k % 10 = m; intro h
  interval_cases m <;> rfl

theorem digit_beq_colon (k : Nat) : (Nat.digitChar (k % 10) == ':') = false := by
  have h : k % 10 < 10 := Nat.mod_lt _ (by norm_num)
  revert h; generalize k % 10 = m; intro h
  interval_cases m <;> rfl

theorem digit_eq_T (k : Nat) : (Nat.digitChar (k % 10) = 'T') = False := by
  have h : k % 10 < 10 := Nat.mod_lt _ (by norm_num)
  revert h; generalize k % 10 = m; intro h
  simp only [eq_iff_iff, iff_false]
  interval_cases m <;> decide

theorem digitChar_inj_lt10 (a b : Nat) (ha : a < 10) (hb : b < 10)
    (h : Nat.digitChar a = Nat.digitChar b) : a = b := by
  interval_cases a <;> interval_cases b <;> revert h <;> decide

theorem generateJobId_eq (d : DateTime) : generateJobId d = "job_" ++ compactStamp d := by
  have h : (replaceFirstChar 'T' '_' (removeDashColon (toISOString d).data)).take 15
      = pad4 d.year ++ pad2 d.month ++ pad2 d.day ++
        '_' :: pad2 d.hour ++ pad2 d.minute ++ pad2 d.second := by
    simp [toISOString, removeDashColon, replaceFirstChar, pad4, pad2, pad3, List.filter,
      digit_beq_dash, digit_beq_colon, digit_eq_T, List.take_succ_cons]
  unfold generateJobId compactStamp
  rw [h]

theorem truthy_true_elim {o : Option String} (h : truthy o = true) :
    ∃ s, o = some s ∧ (s == "") = false ∧ o.getD "" = s := by
  cases o with
  | none => simp [truthy] at h
  | some s => exact ⟨s, rfl, by simpa [truthy] using h, rfl⟩

/-! ## Claims -/

/-- C1 (amended): for every file of size S ≥ 1 uploaded with chunk size
C = 10 MiB, `uploadSingleFile` makes exactly ceil(S/C) `upload_file`
calls; the i-th call carries (base64-encoded) exactly the bytes
[i·C, min((i+1)·C, S)), with index i and total ceil(S/C); and the last
chunk's size is S − (totalChunks−1)·C.  (The original claim, stated for
every size S, fails at S = 0, where the code still makes one call.) -/
theorem uploadSingleFile_chunk_layout (jobId : String) (f : FileH) (h : 1 ≤ f.size) :
    (uploadSingleFile jobId f).length = (f.size + chunkSize - 1) / chunkSize ∧
    (∀ i, i < (f.size + chunkSize - 1) / chunkSize →
      (uploadSingleFile jobId f)[i]? =
        some (Request.upload_file jobId f.name (base64Encode (chunkSlice f i)) i
          ((f.size + chunkSize - 1) / chunkSize))) ∧
    (chunkSlice f ((f.size + chunkSize - 1) / chunkSize - 1)).length
      = f.size - ((f.size + chunkSize - 1) / chunkSize - 1) * chunkSize := by
  by_cases hsz : f.size ≤ chunkSize
  · have hT : (f.size + chunkSize - 1) / chunkSize = 1 := by
      simp only [chunkSize] at hsz h ⊢; omega
    have hslice : chunkSlice f 0 = f.content := by
      have hsz' : f.content.length ≤ chunkSize := hsz
      have hmin : min chunkSize f.content.length = f.content.length := by
        simp only [chunkSize] at hsz' ⊢; omega
      have hlen : f.size = f.content.length := rfl
      simp only [chunkSlice, Nat.zero_mul, Nat.zero_add, List.drop_zero, Nat.sub_zero, hlen,
        hmin]
      exact List.take_length f.content
    refine ⟨?_, ?_, ?_⟩
    · simp [uploadSingleFile, if_pos hsz, hT]
    · intro i hi
      have hi0 : i = 0 := by omega
      subst hi0
      simp [uploadSingleFile, if_pos hsz, hT, hslice]
    · have hlen : List.length f.content = f.size := rfl
      rw [hT]
      simp [hslice, hlen]
  · have hS : chunkSize < f.size := by omega
    have hub : f.size ≤ ((f.size + chunkSize - 1) / chunkSize) * chunkSize := by
      simp only [chunkSize] at hS ⊢; omega
    have hlb : (((f.size + chunkSize - 1) / chunkSize) - 1) * chunkSize < f.size := by
      simp only [chunkSize] at hS ⊢; omega
    refine ⟨?_, ?_, ?_⟩
    · simp [uploadSingleFile, if_neg hsz]
    · intro i hi
      simp [uploadSingleFile, if_neg hsz, List.getElem?_map, List.getElem?_range, hi]
    · have hmin : min ((((f.size + chunkSize - 1) / chunkSize) - 1) * chunkSize + chunkSize)
          f.size = f.size := by
        simp only [chunkSize] at hub hS ⊢; omega
      have hlen : List.length f.content = f.size := rfl
      simp only [chunkSlice, List.length_take, List.length_drop, hlen, hmin]
      simp only [chunkSize] at hlb ⊢
      omega

/-- C1 counterexample: for a zero-byte file, `uploadSingleFile` makes one
`upload_file` call, but ceil(0 / chunkSize) = 0, so the call count does
not equal ceil(S/C) as the claim states for every size S. -/
theorem uploadSingleFile_empty_file_extra_call :
    (uploadSingleFile ("job_x") ⟨"empty.fq.gz", [], true⟩).length ≠
      ((FileH.mk ("empty.fq.gz") [] true).size + chunkSize - 1) / chunkSize := by
  decide

/-- C1 witness: the amended layout theorem evaluated on a concrete
3-byte file. -/
theorem uploadSingleFile_chunk_layout_witness :
    (uploadSingleFile ("job_w") ⟨"w.fq.gz", [10, 20, 30], true⟩).length
        = ((FileH.mk ("w.fq.gz") [10, 20, 30] true).size + chunkSize - 1) / chunkSize ∧
    (∀ i, i < ((FileH.mk ("w.fq.gz") [10, 20, 30] true).size + chunkSize - 1) / chunkSize →
      (uploadSingleFile ("job_w") ⟨"w.fq.gz", [10, 20, 30], true⟩)[i]? =
        some (Request.upload_file ("job_w") (FileH.mk ("w.fq.gz") [10, 20, 30] true).name
          (base64Encode (chunkSlice ⟨"w.fq.gz", [10, 20, 30], true⟩ i)) i
          (((FileH.mk ("w.fq.gz") [10, 20, 30] true).size + chunkSize - 1) / chunkSize))) ∧
    (chunkSlice ⟨"w.fq.gz", [10, 20, 30], true⟩
        (((FileH.mk ("w.fq.gz") [10, 20, 30] true).size + chunkSize - 1) / chunkSize - 1)).length
      = (FileH.mk ("w.fq.gz") [10, 20, 30] true).size
        - (((FileH.mk ("w.fq.gz") [10, 20, 30] true).size + chunkSize - 1) / chunkSize - 1)
          * chunkSize :=
  uploadSingleFile_chunk_layout ("job_w") ⟨"w.fq.gz", [10, 20, 30], true⟩ (by decide)

/-- C2: in the request sequence a `uploadFiles` run transmits (file
names pairwise distinct): the `upload_file` names appear as one
contiguous block per file in the caller's input order; for each file
the chunk indices transmitted are exactly 0, 1, …, numChunks−1 in that
order (strictly increasing, contiguous, zero-based, no repeats) and
`total_chunks` is constantly numChunks; the single `mark_ready` is the
last request, after every chunk of every file. -/
theorem uploadFiles_request_order (now : DateTime) (email : String) (files : List FileH)
    (hnd : (files.map FileH.name).Nodup) :
    uploadNames (sentRequests (uploadFilesEvents now email files))
        = files.flatMap (fun f => List.replicate (numChunks f) f.name) ∧
    (∀ f ∈ files,
      chunkIndices f.name (sentRequests (uploadFilesEvents now email files))
          = List.range (numChunks f) ∧
      chunkTotals f.name (sentRequests (uploadFilesEvents now email files))
          = List.replicate (numChunks f) (numChunks f)) ∧
    (sentRequests (uploadFilesEvents now email files)).getLast?
        = some (Request.mark_ready (generateJobId now)) ∧
    (∀ r ∈ (sentRequests (uploadFilesEvents now email files)).dropLast,
      ∀ j, r ≠ Request.mark_ready j) := by
  rw [sentRequests_uploadFilesEvents, uploadRequests]
  refine ⟨?_, ?_, ?_, ?_⟩
  · show uploadNames (files.flatMap (uploadSingleFile (generateJobId now))
        ++ [Request.mark_ready (generateJobId now)]) = _
    rw [uploadNames_append, uploadNames_flatMap]
    simp [uploadNames]
  · intro f hf
    constructor
    · show chunkIndices f.name (files.flatMap (uploadSingleFile (generateJobId now))
          ++ [Request.mark_ready (generateJobId now)]) = _
      rw [chunkIndices_append, chunkIndices_flatMap hf hnd]
      simp [chunkIndices]
    · show chunkTotals f.name (files.flatMap (uploadSingleFile (generateJobId now))
          ++ [Request.mark_ready (generateJobId now)]) = _
      rw [chunkTotals_append, chunkTotals_flatMap hf hnd]
      simp [chunkTotals]
  · rw [← List.cons_append, List.getLast?_concat]
  · rw [← List.cons_append, List.dropLast_concat]
    intro r hr j
    rcases List.mem_cons.mp hr with hc | hm
    · subst hc; nofun
    · obtain ⟨g, _, hg⟩ := List.mem_flatMap.mp hm
      obtain ⟨d, i, rfl⟩ := mem_uploadSingleFile hg
      nofun

/-- C2 witness: the ordering theorem evaluated on two concrete files
with distinct names. -/
theorem uploadFiles_request_order_witness :
    uploadNames (sentRequests (uploadFilesEvents ⟨2024, 1, 2, 3, 4, 5, 6⟩ ("u@x")
          [⟨"a.fq.gz", [1], true⟩, ⟨"b.fq.gz", [2, 3], true⟩]))
        = [⟨"a.fq.gz", [1], true⟩, ⟨"b.fq.gz", [2, 3], true⟩].flatMap
            (fun f => List.replicate (numChunks f) f.name) ∧
    (∀ f ∈ ([⟨"a.fq.gz", [1], true⟩, ⟨"b.fq.gz", [2, 3], true⟩] : List FileH),
      chunkIndices f.name (sentRequests (uploadFilesEvents ⟨2024, 1, 2, 3, 4, 5, 6⟩ ("u@x")
            [⟨"a.fq.gz", [1], true⟩, ⟨"b.fq.gz", [2, 3], true⟩]))
          = List.range (numChunks f) ∧
      chunkTotals f.name (sentRequests (uploadFilesEvents ⟨2024, 1, 2, 3, 4, 5, 6⟩ ("u@x")
            [⟨"a.fq.gz", [1], true⟩, ⟨"b.fq.gz", [2, 3], true⟩]))
          = List.replicate (numChunks f) (numChunks f)) ∧
    (sentRequests (uploadFilesEvents ⟨2024, 1, 2, 3, 4, 5, 6⟩ ("u@x")
          [⟨"a.fq.gz", [1], true⟩, ⟨"b.fq.gz", [2, 3], true⟩])).getLast?
        = some (Request.mark_ready (generateJobId ⟨2024, 1, 2, 3, 4, 5, 6⟩)) ∧
    (∀ r ∈ (sentRequests (uploadFilesEvents ⟨2024, 1, 2, 3, 4, 5, 6⟩ ("u@x")
          [⟨"a.fq.gz", [1], true⟩, ⟨"b.fq.gz", [2, 3], true⟩])).dropLast,
      ∀ j, r ≠ Request.mark_ready j) :=
  uploadFiles_request_order ⟨2024, 1, 2, 3, 4, 5, 6⟩ ("u@x")
    [⟨"a.fq.gz", [1], true⟩, ⟨"b.fq.gz", [2, 3], true⟩] (by decide)

/-- C3 (amended): for a non-empty list of N files, `uploadFiles` invokes
the progress callback at exactly 0 (start), 10 (after the `create_job`
request), 10 + (k/N)·80 for the k-th file (1-indexed, with that file's
name) as the file's upload begins — the callback fires immediately
before the file's chunks are sent, not after the file completes — then
95 (finalizing) and 100 (done), in this order.  (The original claim
places the per-file checkpoint after the k-th file completes; the code
fires it before sending the file's chunks.) -/
theorem uploadFiles_progress_checkpoints (now : DateTime) (email : String)
    (files : List FileH) (h : files ≠ []) :
    progressList (uploadFilesEvents now email files)
        = 0 :: 10 :: (((List.range files.length).map fun k =>
            10 + (((k + 1 : Nat) : ℚ) / (files.length : ℚ)) * 80) ++ [95, 100]) ∧
    (uploadFilesEvents now email files).get? 0
        = some (Event.progress 0 ("Creating job...") none) ∧
    (uploadFilesEvents now email files).get? 1
        = some (Event.sent (Request.create_job (generateJobId now) email
            (files.map FileH.name))) ∧
    (uploadFilesEvents now email files).get? 2
        = some (Event.progress 10 ("Uploading files...") none) ∧
    (∀ (k : Nat) (f : FileH), files[k]? = some f →
      ∃ pre post, uploadFilesEvents now email files
        = pre ++ Event.progress (10 + (((k + 1 : Nat) : ℚ) / (files.length : ℚ)) * 80)
            ("Uploading file " ++ toString (k + 1) ++ " of " ++ toString files.length ++ "...")
            (some f.name)
          :: ((uploadSingleFile (generateJobId now) f).map Event.sent ++ post)) ∧
    (∃ p, uploadFilesEvents now email files
      = p ++ [Event.progress 95 ("Finalizing upload...") none,
              Event.sent (Request.mark_ready (generateJobId now)),
              Event.progress 100 ("Upload complete!") none]) := by
  have _hne := h
  refine ⟨progressList_uploadFilesEvents now email files, by rfl, by rfl, by rfl, ?_, ?_⟩
  · intro k f hk
    obtain ⟨pre, post, heq⟩ := uploadLoop_decomp (generateJobId now) files.length files 0 k f hk
    have hnat : 0 + k + 1 = k + 1 := by omega
    rw [hnat] at heq
    refine ⟨Event.progress 0 ("Creating job...") none
        :: Event.sent (Request.create_job (generateJobId now) email (files.map FileH.name))
        :: Event.progress 10 ("Uploading files...") none :: pre,
      post ++ [Event.progress 95 ("Finalizing upload...") none,
               Event.sent (Request.mark_ready (generateJobId now)),
               Event.progress 100 ("Upload complete!") none], ?_⟩
    rw [uploadFilesEvents]
    rw [heq]
    simp [List.append_assoc]
  · exact ⟨Event.progress 0 ("Creating job...") none
        :: Event.sent (Request.create_job (generateJobId now) email (files.map FileH.name))
        :: Event.progress 10 ("Uploading files...") none
        :: uploadLoop (generateJobId now) files.length 0 files, by
      rw [uploadFilesEvents]
      simp [List.append_assoc]⟩

/-- C3 counterexample: on one concrete 3-byte file, the event trace of
`uploadFiles` contains the per-file progress callback (90% for file 1 of
1) at position 3 and the file's only `upload_file` request at position
4, so the checkpoint is not invoked as the file completes: it precedes
the file's chunk transmission. -/
theorem uploadFiles_progress_precedes_chunks :
    ¬ (∀ (i j : Nat) (e₁ e₂ : Event),
        (uploadFilesEvents ⟨2024, 1, 2, 3, 4, 5, 6⟩ ("u@x")
            [⟨"a.fq.gz", [1, 2, 3], true⟩]).get? i = some e₁ →
        e₁.hasFile = true →
        (uploadFilesEvents ⟨2024, 1, 2, 3, 4, 5, 6⟩ ("u@x")
            [⟨"a.fq.gz", [1, 2, 3], true⟩]).get? j = some e₂ →
        e₂.isChunkSent = true →
        j < i) := by
  intro hclaim
  have h3 : (uploadFilesEvents ⟨2024, 1, 2, 3, 4, 5, 6⟩ ("u@x")
      [⟨"a.fq.gz", [1, 2, 3], true⟩]).get? 3
      = some (Event.progress
          (10 + (((0 + 1 : Nat) : ℚ) / (((1 : Nat) : ℚ))) * 80)
          ("Uploading file " ++ toString (0 + 1) ++ " of " ++ toString (1 : Nat) ++ "...")
          (some ("a.fq.gz"))) := by rfl
  have h4 : (uploadFilesEvents ⟨2024, 1, 2, 3, 4, 5, 6⟩ ("u@x")
      [⟨"a.fq.gz", [1, 2, 3], true⟩]).get? 4
      = some (Event.sent (Request.upload_file (generateJobId ⟨2024, 1, 2, 3, 4, 5, 6⟩)
          ("a.fq.gz") (base64Encode [1, 2, 3]) 0 1)) := by rfl
  exact absurd (hclaim 3 4 _ _ h3 rfl h4 rfl) (by omega)

/-- C3 witness: the amended checkpoint theorem evaluated on two concrete
files. -/
theorem uploadFiles_progress_checkpoints_witness :
    progressList (uploadFilesEvents ⟨2024, 1, 2, 3, 4, 5, 6⟩ ("u@x")
          [⟨"a.fq.gz", [1], true⟩, ⟨"b.fq.gz", [2, 3], true⟩])
        = 0 :: 10 :: (((List.range
            ([(⟨"a.fq.gz", [1], true⟩ : FileH), ⟨"b.fq.gz", [2, 3], true⟩].length)).map fun k =>
            10 + (((k + 1 : Nat) : ℚ)
              / (([(⟨"a.fq.gz", [1], true⟩ : FileH), ⟨"b.fq.gz", [2, 3], true⟩].length : Nat) : ℚ))
              * 80) ++ [95, 100]) ∧
    (uploadFilesEvents ⟨2024, 1, 2, 3, 4, 5, 6⟩ ("u@x")
          [⟨"a.fq.gz", [1], true⟩, ⟨"b.fq.gz", [2, 3], true⟩]).get? 0
        = some (Event.progress 0 ("Creating job...") none) ∧
    (uploadFilesEvents ⟨2024, 1, 2, 3, 4, 5, 6⟩ ("u@x")
          [⟨"a.fq.gz", [1], true⟩, ⟨"b.fq.gz", [2, 3], true⟩]).get? 1
        = some (Event.sent (Request.create_job (generateJobId ⟨2024, 1, 2, 3, 4, 5, 6⟩) ("u@x")
            ([⟨"a.fq.gz", [1], true⟩, ⟨"b.fq.gz", [2, 3], true⟩].map FileH.name))) ∧
    (uploadFilesEvents ⟨2024, 1, 2, 3, 4, 5, 6⟩ ("u@x")
          [⟨"a.fq.gz", [1], true⟩, ⟨"b.fq.gz", [2, 3], true⟩]).get? 2
        = some (Event.progress 10 ("Uploading files...") none) ∧
    (∀ (k : Nat) (f : FileH),
      ([(⟨"a.fq.gz", [1], true⟩ : FileH), ⟨"b.fq.gz", [2, 3], true⟩] : List FileH)[k]?
          = some f →
      ∃ pre post, uploadFilesEvents ⟨2024, 1, 2, 3, 4, 5, 6⟩ ("u@x")
            [⟨"a.fq.gz", [1], true⟩, ⟨"b.fq.gz", [2, 3], true⟩]
        = pre ++ Event.progress
            (10 + (((k + 1 : Nat) : ℚ)
              / (([(⟨"a.fq.gz", [1], true⟩ : FileH), ⟨"b.fq.gz", [2, 3], true⟩].length : Nat) : ℚ))
              * 80)
            ("Uploading file " ++ toString (k + 1) ++ " of "
              ++ toString ([(⟨"a.fq.gz", [1], true⟩ : FileH), ⟨"b.fq.gz", [2, 3], true⟩].length)
              ++ "...")
            (some f.name)
          :: ((uploadSingleFile (generateJobId ⟨2024, 1, 2, 3, 4, 5, 6⟩) f).map Event.sent
              ++ post)) ∧
    (∃ p, uploadFilesEvents ⟨2024, 1, 2, 3, 4, 5, 6⟩ ("u@x")
          [⟨"a.fq.gz", [1], true⟩, ⟨"b.fq.gz", [2, 3], true⟩]
      = p ++ [Event.progress 95 ("Finalizing upload...") none,
              Event.sent (Request.mark_ready (generateJobId ⟨2024, 1, 2, 3, 4, 5, 6⟩)),
              Event.progress 100 ("Upload complete!") none]) :=
  uploadFiles_progress_checkpoints ⟨2024, 1, 2, 3, 4, 5, 6⟩ ("u@x")
    [⟨"a.fq.gz", [1], true⟩, ⟨"b.fq.gz", [2, 3], true⟩] (by decide)

/-- C4: for every non-empty file list, the percentage sequence passed to
the progress callback by `uploadFiles` is non-decreasing, starts at 0
and ends at 100. -/
theorem uploadFiles_progress_monotone (now : DateTime) (email : String)
    (files : List FileH) (h : files ≠ []) :
    List.Chain' (· ≤ ·) (progressList (uploadFilesEvents now email files)) ∧
    (progressList (uploadFilesEvents now email files)).head? = some 0 ∧
    (progressList (uploadFilesEvents now email files)).getLast? = some 100 := by
  have hN : 0 < files.length := List.length_pos.mpr h
  have hN' : (0 : ℚ) < (files.length : ℚ) := by exact_mod_cast hN
  rw [progressList_uploadFilesEvents]
  have hmem : ∀ b ∈ (List.range files.length).map
      (fun k => 10 + (((k + 1 : Nat) : ℚ) / (files.length : ℚ)) * 80),
      (10 : ℚ) ≤ b ∧ b ≤ 90 := by
    intro b hb
    obtain ⟨k, hk, rfl⟩ := List.mem_map.mp hb
    exact progressVal_bounds hN (List.mem_range.mp hk)
  refine ⟨?_, rfl, ?_⟩
  · refine List.Pairwise.chain' ?_
    refine List.pairwise_cons.mpr ⟨?_, List.pairwise_cons.mpr ⟨?_, ?_⟩⟩
    · intro b hb
      rcases List.mem_cons.mp hb with rfl | hb'
      · norm_num
      rcases List.mem_append.mp hb' with hbm | hbe
      · linarith [(hmem b hbm).1]
      · rcases List.mem_cons.mp hbe with rfl | hbe'
        · norm_num
        rcases List.mem_cons.mp hbe' with rfl | hbe''
        · norm_num
        · cases hbe''
    · intro b hb
      rcases List.mem_append.mp hb with hbm | hbe
      · linarith [(hmem b hbm).1]
      · rcases List.mem_cons.mp hbe with rfl | hbe'
        · norm_num
        rcases List.mem_cons.mp hbe' with rfl | hbe''
        · norm_num
        · cases hbe''
    · rw [List.pairwise_append]
      refine ⟨?_, ?_, ?_⟩
      · rw [List.pairwise_map]
        refine List.Pairwise.imp ?_ (List.pairwise_lt_range _)
        intro k k' hkk
        have hle : ((k + 1 : Nat) : ℚ) ≤ ((k' + 1 : Nat) : ℚ) := by
          exact_mod_cast Nat.succ_le_succ (le_of_lt hkk)
        have hdiv : ((k + 1 : Nat) : ℚ) / (files.length : ℚ)
            ≤ ((k' + 1 : Nat) : ℚ) / (files.length : ℚ) :=
          (div_le_div_iff_of_pos_right hN').mpr hle
        nlinarith
      · norm_num
      · intro a ha b hb
        have h90 := (hmem a ha).2
        rcases List.mem_cons.mp hb with rfl | hb'
        · linarith
        rcases List.mem_cons.mp hb' with rfl | hb''
        · linarith
        · cases hb''
  · rw [← List.cons_append, ← List.cons_append, List.getLast?_append_cons]
    rfl

/-- C4 witness: the monotonicity theorem evaluated on two concrete
files. -/
theorem uploadFiles_progress_monotone_witness :
    List.Chain' (· ≤ ·) (progressList (uploadFilesEvents ⟨2024, 1, 2, 3, 4, 5, 6⟩ ("u@x")
        [⟨"a.fq.gz", [1], true⟩, ⟨"b.fq.gz", [2, 3], true⟩])) ∧
    (progressList (uploadFilesEvents ⟨2024, 1, 2, 3, 4, 5, 6⟩ ("u@x")
        [⟨"a.fq.gz", [1], true⟩, ⟨"b.fq.gz", [2, 3], true⟩])).head? = some 0 ∧
    (progressList (uploadFilesEvents ⟨2024, 1, 2, 3, 4, 5, 6⟩ ("u@x")
        [⟨"a.fq.gz", [1], true⟩, ⟨"b.fq.gz", [2, 3], true⟩])).getLast? = some 100 :=
  uploadFiles_progress_monotone ⟨2024, 1, 2, 3, 4, 5, 6⟩ ("u@x")
    [⟨"a.fq.gz", [1], true⟩, ⟨"b.fq.gz", [2, 3], true⟩] (by decide)

/-- C5 (code bug): the claim says no headers are sent on any of the
three GET requests, and `getJobStatus` / `getJobResults` indeed send
none — but `getDownloadUrl` (app.js lines 276-281) does send a
`Content-Type: application/json` header on its GET, contradicting the
no-headers-to-avoid-preflight design the other two accessors document
in their own comments (app.js lines 205, 208, 242, 245). -/
theorem getDownloadUrl_get_sends_header :
    (getDownloadUrlRequest ("job_x") ("file123")).headers
        = [("Content-Type", "application/json")] ∧
    (getJobStatusRequest ("job_x")).headers = [] ∧
    (getJobResultsRequest ("job_x")).headers = [] :=
  ⟨rfl, rfl, rfl⟩

/-- C6 (amended): each GET accessor rejects exactly when the transport
call fails, the response is not OK, or the parsed response contains a
truthy (present and non-empty) `error` field; every rejection message is
the operation's phase prefix with the underlying message appended, and
on success each returns the parsed payload (the `url` value for
`getDownloadUrl`).  (The original claim, for any present `error` field,
fails at `error = ""`, which JavaScript truthiness lets through as
success.) -/
theorem getters_reject_exactly (m : String) (b bt bf : RespBody)
    (ht : truthy bt.error = true) (hf : truthy bf.error = false) :
    (getJobStatus (FetchResult.netError m)
        = Except.error ("Could not retrieve job status: " ++ m) ∧
     getJobStatus (FetchResult.response false b)
        = Except.error ("Could not retrieve job status: " ++ "Failed to get status") ∧
     getJobStatus (FetchResult.response true bt)
        = Except.error ("Could not retrieve job status: " ++ bt.error.getD "") ∧
     getJobStatus (FetchResult.response true bf) = Except.ok bf) ∧
    (getJobResults (FetchResult.netError m)
        = Except.error ("Could not retrieve results: " ++ m) ∧
     getJobResults (FetchResult.response false b)
        = Except.error ("Could not retrieve results: " ++ "Failed to get results") ∧
     getJobResults (FetchResult.response true bt)
        = Except.error ("Could not retrieve results: " ++ bt.error.getD "") ∧
     getJobResults (FetchResult.response true bf) = Except.ok bf) ∧
    (getDownloadUrl (FetchResult.netError m)
        = Except.error ("Could not get download URL: " ++ m) ∧
     getDownloadUrl (FetchResult.response false b)
        = Except.error ("Could not get download URL: " ++ "Failed to get download URL") ∧
     getDownloadUrl (FetchResult.response true bt)
        = Except.error ("Could not get download URL: " ++ bt.error.getD "") ∧
     getDownloadUrl (FetchResult.response true bf) = Except.ok bf.url) := by
  obtain ⟨s, hs, hbeq, hget⟩ := truthy_true_elim ht
  have hne : ¬(s = "") := by simpa using hbeq
  refine ⟨⟨rfl, rfl, ?_, ?_⟩, ⟨rfl, rfl, ?_, ?_⟩, ⟨rfl, rfl, ?_, ?_⟩⟩
  · simp [getJobStatus, hs, hne]
  · cases hbf : bf.error with
    | none => simp [getJobStatus, hbf]
    | some t => rw [hbf] at hf; simp [truthy] at hf; simp [getJobStatus, hbf, hf]
  · simp [getJobResults, hs, hne]
  · cases hbf : bf.error with
    | none => simp [getJobResults, hbf]
    | some t => rw [hbf] at hf; simp [truthy] at hf; simp [getJobResults, hbf, hf]
  · simp [getDownloadUrl, hs, hne]
  · cases hbf : bf.error with
    | none => simp [getDownloadUrl, hbf]
    | some t => rw [hbf] at hf; simp [truthy] at hf; simp [getDownloadUrl, hbf, hf]

/-- C6 counterexample: a parsed OK response that does contain an `error`
field, with value `""`, is returned as success by `getJobStatus` — the
function does not reject on every present `error` field as the original
claim states. -/
theorem getJobStatus_accepts_empty_error_field :
    getJobStatus (FetchResult.response true ⟨some "", none, "payload"⟩)
        = Except.ok ⟨some "", none, "payload"⟩ ∧
    (RespBody.mk (some "") none ("payload")).error ≠ none :=
  ⟨rfl, by decide⟩

/-- C6 witness: the amended rejection theorem evaluated at concrete
transport outcomes. -/
theorem getters_reject_exactly_witness :
    (getJobStatus (FetchResult.netError ("network down"))
        = Except.error ("Could not retrieve job status: " ++ "network down") ∧
     getJobStatus (FetchResult.response false ⟨none, none, "p"⟩)
        = Except.error ("Could not retrieve job status: " ++ "Failed to get status") ∧
     getJobStatus (FetchResult.response true ⟨some ("boom"), none, "p"⟩)
        = Except.error ("Could not retrieve job status: "
            ++ (RespBody.mk (some ("boom")) none ("p")).error.getD "") ∧
     getJobStatus (FetchResult.response true ⟨none, some ("https://dl"), "p"⟩)
        = Except.ok ⟨none, some ("https://dl"), "p"⟩) ∧
    (getJobResults (FetchResult.netError ("network down"))
        = Except.error ("Could not retrieve results: " ++ "network down") ∧
     getJobResults (FetchResult.response false ⟨none, none, "p"⟩)
        = Except.error ("Could not retrieve results: " ++ "Failed to get results") ∧
     getJobResults (FetchResult.response true ⟨some ("boom"), none, "p"⟩)
        = Except.error ("Could not retrieve results: "
            ++ (RespBody.mk (some ("boom")) none ("p")).error.getD "") ∧
     getJobResults (FetchResult.response true ⟨none, some ("https://dl"), "p"⟩)
        = Except.ok ⟨none, some ("https://dl"), "p"⟩) ∧
    (getDownloadUrl (FetchResult.netError ("network down"))
        = Except.error ("Could not get download URL: " ++ "network down") ∧
     getDownloadUrl (FetchResult.response false ⟨none, none, "p"⟩)
        = Except.error ("Could not get download URL: " ++ "Failed to get download URL") ∧
     getDownloadUrl (FetchResult.response true ⟨some ("boom"), none, "p"⟩)
        = Except.error ("Could not get download URL: "
            ++ (RespBody.mk (some ("boom")) none ("p")).error.getD "") ∧
     getDownloadUrl (FetchResult.response true ⟨none, some ("https://dl"), "p"⟩)
        = Except.ok (RespBody.mk none (some ("https://dl")) ("p")).url) :=
  getters_reject_exactly ("network down") ⟨none, none, "p"⟩ ⟨some ("boom"), none, "p"⟩
    ⟨none, some ("https://dl"), "p"⟩ (by decide) (by decide)

/-- C7: if the transport rejects the (k+1)-th POST of a `uploadFiles`
run (all reads succeeding), the run stops there: the requests handed to
the transport are exactly the first k+1 of the failure-free sequence
(no retry, no cleanup, no further backend call) and the sole outcome is
`Upload failed: ` with the underlying message appended; and if a file's
chunk read fails (all earlier steps succeeding), the run stops before
that file's first chunk is posted, with outcome
`Upload failed: Failed to read file`. -/
theorem uploadFiles_abort_on_failure (oracle : Nat → Option String) (now : DateTime)
    (email : String) (files : List FileH) (k : Nat) (m : String) :
    ((∀ f ∈ files, f.readOk = true) →
     (∀ j, j < k → oracle j = none) →
     oracle k = some m →
     k < (uploadRequests (generateJobId now) email files).length →
     runUpload oracle now email files
       = ((uploadRequests (generateJobId now) email files).take (k + 1),
          Except.error ("Upload failed: " ++ m))) ∧
    (∀ (gs : List FileH) (f : FileH) (rest : List FileH),
      files = gs ++ f :: rest →
      (∀ g ∈ gs, g.readOk = true) →
      f.readOk = false →
      (∀ j, j < 1 + (gs.flatMap (uploadSingleFile (generateJobId now))).length →
        oracle j = none) →
      runUpload oracle now email files
        = (Request.create_job (generateJobId now) email (files.map FileH.name)
            :: gs.flatMap (uploadSingleFile (generateJobId now)),
           Except.error ("Upload failed: " ++ "Failed to read file"))) := by
  constructor
  · intro hread hpre hk hlen
    have hlen' : k < (uploadActions (generateJobId now) email files).length := by
      have hh := congrArg List.length (map_req_uploadActions (generateJobId now) email files)
      simp only [List.length_map] at hh
      omega
    have hrun := runActions_transport_fail oracle
      (uploadActions (generateJobId now) email files) 0 k m
      (readflags_uploadActions hread)
      (by intro j hj; simpa using hpre j hj)
      (by simpa using hk) hlen'
    rw [runUpload, hrun, map_req_uploadActions]
  · intro gs f rest hfiles hgs hf hnone
    subst hfiles
    obtain ⟨c₀, ctail, hc⟩ :=
      List.exists_cons_of_ne_nil (uploadSingleFile_ne_nil (generateJobId now) f)
    have hacts : uploadActions (generateJobId now) email (gs ++ f :: rest)
        = (UploadAction.post (Request.create_job (generateJobId now) email
              ((gs ++ f :: rest).map FileH.name))
            :: gs.flatMap (fun g =>
                (uploadSingleFile (generateJobId now) g).map (UploadAction.readPost g.readOk)))
          ++ UploadAction.readPost false c₀
            :: (ctail.map (UploadAction.readPost false)
                ++ (rest.flatMap (fun g =>
                      (uploadSingleFile (generateJobId now) g).map
                        (UploadAction.readPost g.readOk))
                    ++ [UploadAction.post (Request.mark_ready (generateJobId now))])) := by
      rw [uploadActions, List.flatMap_append, List.flatMap_cons, hf, hc]
      simp [List.append_assoc]
    have hreads : ∀ b r, UploadAction.readPost b r ∈
        (UploadAction.post (Request.create_job (generateJobId now) email
            ((gs ++ f :: rest).map FileH.name))
          :: gs.flatMap (fun g =>
              (uploadSingleFile (generateJobId now) g).map (UploadAction.readPost g.readOk)))
        → b = true := by
      intro b r hm
      rcases List.mem_cons.mp hm with hcon | hm'
      · cases hcon
      obtain ⟨g, hg, hx⟩ := List.mem_flatMap.mp hm'
      obtain ⟨r', _, hr'⟩ := List.mem_map.mp hx
      cases hr'
      exact hgs g hg
    have hlenacts : (UploadAction.post (Request.create_job (generateJobId now) email
          ((gs ++ f :: rest).map FileH.name))
        :: gs.flatMap (fun g =>
            (uploadSingleFile (generateJobId now) g).map
              (UploadAction.readPost g.readOk))).length
        = 1 + (gs.flatMap (uploadSingleFile (generateJobId now))).length := by
      rw [List.length_cons, length_flatMap_readPost]
      omega
    have hrun := runActions_read_fail oracle
      (UploadAction.post (Request.create_job (generateJobId now) email
          ((gs ++ f :: rest).map FileH.name))
        :: gs.flatMap (fun g =>
            (uploadSingleFile (generateJobId now) g).map (UploadAction.readPost g.readOk)))
      c₀
      (ctail.map (UploadAction.readPost false)
        ++ (rest.flatMap (fun g =>
              (uploadSingleFile (generateJobId now) g).map (UploadAction.readPost g.readOk))
            ++ [UploadAction.post (Request.mark_ready (generateJobId now))]))
      0 hreads
      (by intro j hj; rw [hlenacts] at hj; simpa using hnone j hj)
    rw [runUpload, hacts, hrun]
    simp only [List.map_cons, UploadAction.req, map_req_flatMap]

/-- C7 witness: the abort theorem evaluated concretely — a transport
failure on the second POST of a one-file run, and a read failure on the
second file of a two-file run. -/
theorem uploadFiles_abort_on_failure_witness :
    runUpload (fun n => if n = 1 then some ("boom") else none) ⟨2024, 1, 2, 3, 4, 5, 6⟩
        ("u@x") [⟨"a.fq.gz", [1], true⟩]
      = ((uploadRequests (generateJobId ⟨2024, 1, 2, 3, 4, 5, 6⟩) ("u@x")
            [⟨"a.fq.gz", [1], true⟩]).take 2,
         Except.error ("Upload failed: " ++ "boom")) ∧
    runUpload (fun _ => none) ⟨2024, 1, 2, 3, 4, 5, 6⟩ ("u@x")
        [⟨"a.fq.gz", [1], true⟩, ⟨"bad.fq.gz", [7], false⟩]
      = (Request.create_job (generateJobId ⟨2024, 1, 2, 3, 4, 5, 6⟩) ("u@x")
            (List.map FileH.name [⟨"a.fq.gz", [1], true⟩, ⟨"bad.fq.gz", [7], false⟩])
          :: ([⟨"a.fq.gz", [1], true⟩] : List FileH).flatMap
              (uploadSingleFile (generateJobId ⟨2024, 1, 2, 3, 4, 5, 6⟩)),
         Except.error ("Upload failed: " ++ "Failed to read file")) := by
  constructor
  · exact (uploadFiles_abort_on_failure (fun n => if n = 1 then some ("boom") else none)
      ⟨2024, 1, 2, 3, 4, 5, 6⟩ ("u@x") [⟨"a.fq.gz", [1], true⟩] 1 ("boom")).1
      (by decide)
      (by
        intro j hj
        have hj0 : j = 0 := by omega
        simp [hj0])
      rfl (by decide)
  · exact (uploadFiles_abort_on_failure (fun _ => none) ⟨2024, 1, 2, 3, 4, 5, 6⟩ ("u@x")
      [⟨"a.fq.gz", [1], true⟩, ⟨"bad.fq.gz", [7], false⟩] 0 ("x")).2
      [⟨"a.fq.gz", [1], true⟩] ⟨"bad.fq.gz", [7], false⟩ []
      rfl (by decide) rfl (fun j hj => rfl)

/-- C8: the POST handlers of the upload path never inspect the HTTP
response: for every resolved response (whatever its status or body)
`createJobManifest` returns `true`, `uploadFileChunk` resolves, and
`markJobReady` completes; a transport rejection is the only failure, and
it propagates unchanged. -/
theorem post_discards_response (r : PostResponse) (m : String) :
    createJobManifest (Except.ok r) = Except.ok true ∧
    uploadFileChunk true (Except.ok r) = Except.ok () ∧
    markJobReady (Except.ok r) = Except.ok () ∧
    createJobManifest (Except.error m) = Except.error m ∧
    uploadFileChunk true (Except.error m) = Except.error m ∧
    markJobReady (Except.error m) = Except.error m :=
  ⟨rfl, rfl, rfl, rfl, rfl, rfl⟩

/-- C9: every generated job identifier is `job_` followed by the
15-character compact second-precision timestamp `YYYYMMDD_HHMMSS`, so
two identifiers generated in the same calendar minute at different
(in-range) seconds are distinct. -/
theorem generateJobId_compact_format_distinct (d₁ d₂ : DateTime) :
    generateJobId d₁ = "job_" ++ compactStamp d₁ ∧
    (compactStamp d₁).length = 15 ∧
    (d₁.year = d₂.year → d₁.month = d₂.month → d₁.day = d₂.day → d₁.hour = d₂.hour →
     d₁.minute = d₂.minute → d₁.second < 60 → d₂.second < 60 → d₁.second ≠ d₂.second →
     generateJobId d₁ ≠ generateJobId d₂) := by
  refine ⟨generateJobId_eq d₁, ?_, ?_⟩
  · simp [compactStamp, String.length, pad4, pad2]
  · intro hy hmo hdd hh hmi hs₁ hs₂ hne hcontra
    rw [generateJobId_eq d₁, generateJobId_eq d₂] at hcontra
    have hd := congrArg String.data hcontra
    simp [compactStamp, pad4, pad2, hy, hmo, hdd, hh, hmi] at hd
    have h1 := digitChar_inj_lt10 _ _ (Nat.mod_lt _ (by norm_num)) (Nat.mod_lt _ (by norm_num))
      hd.1
    have h2 := digitChar_inj_lt10 _ _ (Nat.mod_lt _ (by norm_num)) (Nat.mod_lt _ (by norm_num))
      hd.2
    omega

/-- C9 witness: the format theorem evaluated at two clock readings one
second apart within the same minute. -/
theorem generateJobId_compact_format_distinct_witness :
    generateJobId ⟨2024, 1, 2, 3, 4, 5, 6⟩ = "job_" ++ compactStamp ⟨2024, 1, 2, 3, 4, 5, 6⟩ ∧
    (compactStamp ⟨2024, 1, 2, 3, 4, 5, 6⟩).length = 15 ∧
    generateJobId ⟨2024, 1, 2, 3, 4, 5, 6⟩ ≠ generateJobId ⟨2024, 1, 2, 3, 4, 6, 6⟩ :=
  ⟨(generateJobId_compact_format_distinct ⟨2024, 1, 2, 3, 4, 5, 6⟩ ⟨2024, 1, 2, 3, 4, 6, 6⟩).1,
   (generateJobId_compact_format_distinct ⟨2024, 1, 2, 3, 4, 5, 6⟩ ⟨2024, 1, 2, 3, 4, 6, 6⟩).2.1,
   (generateJobId_compact_format_distinct ⟨2024, 1, 2, 3, 4, 5, 6⟩ ⟨2024, 1, 2, 3, 4, 6, 6⟩).2.2
     rfl rfl rfl rfl rfl (by norm_num) (by norm_num) (by norm_num)⟩

/-- C10: called with an empty file collection, `uploadFiles` does not
fail: against a transport that never rejects it posts exactly one
`create_job` (with an empty manifest) and one `mark_ready`, makes no
`upload_file` call, reports progress exactly 0, 10, 95, 100, and
returns the generated job identifier. -/
theorem uploadFiles_empty_files (now : DateTime) (email : String) :
    runUpload (fun _ => none) now email []
      = ([Request.create_job (generateJobId now) email [],
          Request.mark_ready (generateJobId now)],
         Except.ok (generateJobId now)) ∧
    progressList (uploadFilesEvents now email []) = [0, 10, 95, 100] ∧
    sentRequests (uploadFilesEvents now email [])
      = [Request.create_job (generateJobId now) email [],
         Request.mark_ready (generateJobId now)] :=
  ⟨rfl, rfl, rfl⟩
